import Mathlib

/-!
Shallow embedding of `src/toronto_bike_share/load_tbs.py` (the current
variant of the repository's single module; `src/toronto-bike-share/load_tbs.py`
is an earlier revision of the same functions).

The module is a linear ETL pipeline over a DuckDB database and a `data/`
working directory:

* `download_data` : HTTP GET per year, unzip into `data/`, year-specific
  filesystem fixups (nested zip for 2022; folder flattening for 2022/2023);
* `load_data`     : attempt to create two enum types (catching
  `duckdb.CatalogException`), `CREATE TABLE IF NOT EXISTS tbs_trips`, then
  `INSERT INTO tbs_trips SELECT ... FROM read_csv(...) WHERE NOT EXISTS
  (SELECT 1 FROM tbs_trips WHERE tbs_trips."Trip Id" = new_data."Trip Id")`;
* `remove_csv`    : delete every `.csv` file under `data/` recursively;
* `export_as_parquet` : `COPY (SELECT * FROM tbs_trips ORDER BY "Trip Id")
  TO "./data/tbs.parquet" (FORMAT parquet, CODEC zstd, COMPRESSION_LEVEL 3)`.

Effects are made explicit: the filesystem is a set of file paths with
contents plus a set of directory paths; the network and zip parsing are an
oracle (`World`); the database is a catalog (list of created type names)
plus the optional `tbs_trips` table, a list of rows.  File contents are
abstracted as `Nat` identifiers (only identity of bytes matters to the
pipeline, never their structure, except through the zip oracle).
-/

namespace TBS

/-! ## Filesystem model -/

/-- A path, as its list of components; `data/x.csv` is `["data", "x.csv"]`. -/
abbrev Path := List String

/-- Filesystem state: the files (path with content id) and the directories. -/
structure FS where
  files : List (Path × Nat)
  dirs : List Path
deriving DecidableEq, Repr

/-- Content of the file at `p`, if present. -/
def getFile (fs : FS) (p : Path) : Option Nat :=
  fs.files.lookup p

def fileExists (fs : FS) (p : Path) : Bool :=
  (getFile fs p).isSome

def dirExists (fs : FS) (p : Path) : Bool :=
  fs.dirs.contains p

/-- Delete the file at `p` (`Path.unlink` / `os.remove`). -/
def removeFile (fs : FS) (p : Path) : FS :=
  { fs with files := fs.files.filter (fun e => e.1 != p) }

/-- Create directory `p` if absent. -/
def addDir (fs : FS) (p : Path) : FS :=
  if dirExists fs p then fs else { fs with dirs := p :: fs.dirs }

/-- The proper ancestor directories of `p`: `take 1, ..., take (length - 1)`. -/
def properAncestors (p : Path) : List Path :=
  (List.range (p.length - 1)).map (fun k => p.take (k + 1))

/-- Write content `d` at path `p`, replacing any existing file there. -/
def writeFile (fs : FS) (p : Path) (d : Nat) : FS :=
  let fs1 := removeFile fs p
  { fs1 with files := fs1.files ++ [(p, d)] }

def mkdirs (fs : FS) (ps : List Path) : FS :=
  ps.foldl addDir fs

/-- A parsed zip archive: entries as (relative path, content id). -/
abbrev Archive := List (Path × Nat)

/-- Extraction of one zip entry: create the intermediate directories of the
entry's destination, then write its content there (overwriting). -/
def extractEntry (dest : Path) (acc : FS) (e : Path × Nat) : FS :=
  writeFile (mkdirs acc (properAncestors (dest ++ e.1))) (dest ++ e.1) e.2

/-- `ZipFile.extractall(dest)`: write every entry under `dest`, creating the
destination directory and all intermediate directories, overwriting existing
files. -/
def extractall (fs : FS) (ar : Archive) (dest : Path) : FS :=
  ar.foldl (extractEntry dest) (addDir fs dest)

/-- If `p` is `folder/name`, return `name`. -/
def asChildOf (folder : Path) (p : Path) : Option String :=
  if p.length == folder.length + 1 && p.take folder.length == folder then
    p.getLast?
  else none

/-- The files lying directly in `folder`, as (name, content) pairs, in
filesystem listing order (the order `os.walk` reports them). -/
def directFiles (fs : FS) (folder : Path) : List (String × Nat) :=
  fs.files.filterMap (fun e => (asChildOf folder e.1).map (fun n => (n, e.2)))

/-- Does `folder` have a directory directly inside it? -/
def hasDirectSubdir (fs : FS) (folder : Path) : Bool :=
  fs.dirs.any (fun d => (asChildOf folder d).isSome)

/-- Does `folder` have a file directly inside it? -/
def hasDirectFile (fs : FS) (folder : Path) : Bool :=
  fs.files.any (fun e => (asChildOf folder e.1).isSome)

inductive OSErr
  | dirNotEmpty
deriving DecidableEq, Repr

/-- `Path.rmdir`: remove `folder`, failing with `OSError` if anything is
still directly inside it. -/
def rmdirE (fs : FS) (folder : Path) : Except OSErr FS :=
  if hasDirectFile fs folder || hasDirectSubdir fs folder then
    .error .dirNotEmpty
  else
    .ok { fs with dirs := fs.dirs.filter (fun d => d != folder) }

/-! ## Network / zip oracle -/

inductive NetErr
  | connectionError
  | timeoutError
deriving DecidableEq, Repr

structure HttpResponse where
  statusCode : Nat
  content : Nat
deriving DecidableEq, Repr

/-- The environment: what `requests.get` returns for each URL (a network
error, or a response with a status code and a body — `requests.get` raises
only on network errors, never on a non-success status), and which byte
blobs parse as zip archives (`ZipFile` raises `BadZipFile` otherwise). -/
structure World where
  http : String → Except NetErr HttpResponse
  zipOf : Nat → Option Archive

inductive RunErr
  | netErr (e : NetErr)
  | badZipFile
  | fileNotFound
  | osErr (e : OSErr)
deriving DecidableEq, Repr

/-! ## download_data -/

def BASE_URL : String :=
  "https://ckan0.cf.opendata.inter.prod-toronto.ca/dataset/7e876c24-177c-4605-9cef-e50dd74c617f/resource"

def YEAR_MAP : List (Nat × String) :=
  [(2021, "ddc039f6-07fa-47a3-a707-0121ade3b307"),
   (2022, "db10a7b1-2702-481c-b7f0-0c67070104bb"),
   (2023, "f0fa6a67-4571-4dd6-9d5a-df010ebed7d1"),
   (2024, "9a9a0163-8114-447c-bf66-790b1a92da51")]

def REMOVE_FOLDER : List Nat := [2022, 2023]

def BAD_YEAR : Nat := 2022

def downloadUrl (year : Nat) (resourceId : String) : String :=
  BASE_URL ++ "/" ++ resourceId ++ "/download/bikeshare-ridership-" ++
    toString year ++ ".zip"

def yearFolder (year : Nat) : Path :=
  ["data", "bikeshare-ridership-" ++ toString year]

def jankFile : Path :=
  ["data", "bikeshare-ridership-2022", "Bike share ridership 2022-11.zip"]

/-- The 2022 special case: open the nested zip at `jankFile` (raising
`FileNotFoundError` if absent, `BadZipFile` if not a zip), extract it into
`data/bikeshare-ridership-2022`, then unlink it. -/
def nestedZipFixup (w : World) (fs : FS) : Except RunErr FS :=
  match getFile fs jankFile with
  | none => .error .fileNotFound
  | some c =>
    match w.zipOf c with
    | none => .error .badZipFile
    | some ar =>
      let fs1 := extractall fs ar ["data", "bikeshare-ridership-2022"]
      .ok (removeFile fs1 jankFile)

/-- One `Path(root, file).rename(Path("data", file))`: the source entry is
removed and its content written at the destination, replacing any file
already there (POSIX rename semantics). -/
def moveEntry (folder : Path) (acc : FS) (nd : String × Nat) : FS :=
  writeFile (removeFile acc (folder ++ [nd.1])) ["data", nd.1] nd.2

/-- The file-moving loop body: for each file directly in `folder` (in
listing order), `Path(root, file).rename(Path("data", file))`. -/
def moveOut (fs : FS) (folder : Path) : FS :=
  (directFiles fs folder).foldl (moveEntry folder) fs

/-- The flattening fixup for a year in `REMOVE_FOLDER`:
`os.walk("data/bikeshare-ridership-{year}")` top-down; a missing root walks
nothing.  The first directory the walk yields is the root itself: its files
are moved into `data/`, then `Path(root).rmdir()` runs — which raises
`OSError` when the root still contains a subdirectory, ending the run
before any deeper directory is visited.  When the root holds no
subdirectory, the walk has nothing further to yield and the root (now
empty) is removed. -/
def flattenFixup (fs : FS) (year : Nat) : Except OSErr FS :=
  let folder := yearFolder year
  if dirExists fs folder then
    rmdirE (moveOut fs folder) folder
  else
    .ok fs

/-- One iteration of the `download_data` loop: GET the year's URL (network
errors propagate), parse the body as a zip (`BadZipFile` propagates),
extract into `data/`; `continue` when `unzip` is false; otherwise the 2022
nested-zip fixup and the `REMOVE_FOLDER` flattening fixup. -/
def downloadYear (w : World) (unzip : Bool) (fs : FS) (year : Nat)
    (resourceId : String) : Except RunErr FS :=
  match w.http (downloadUrl year resourceId) with
  | .error e => .error (.netErr e)
  | .ok r =>
    match w.zipOf r.content with
    | none => .error .badZipFile
    | some ar =>
      let fs1 := extractall fs ar ["data"]
      if unzip = false then .ok fs1
      else
        match (if year == BAD_YEAR then nestedZipFixup w fs1 else .ok fs1) with
        | .error e => .error e
        | .ok fs2 =>
          if REMOVE_FOLDER.contains year then
            match flattenFixup fs2 year with
            | .error e => .error (.osErr e)
            | .ok fs3 => .ok fs3
          else .ok fs2

/-- The `download_data` loop over `filter(lambda x: x[0] in years,
YEAR_MAP.items())`.  Alongside the result it returns the trace of GET
requests issued, as the (year, resource id) pairs whose URLs were fetched,
in order — `downloadYear` applies `w.http` exactly once, so each processed
year contributes exactly one GET (to `downloadUrl y rid`) to the trace. -/
def downloadLoop (w : World) (unzip : Bool) :
    List (Nat × String) → FS → Except RunErr FS × List (Nat × String)
  | [], fs => (.ok fs, [])
  | (y, rid) :: rest, fs =>
    match downloadYear w unzip fs y rid with
    | .error e => (.error e, [(y, rid)])
    | .ok fs1 =>
      let out := downloadLoop w unzip rest fs1
      (out.1, (y, rid) :: out.2)

def download_data (w : World) (years : List Nat) (unzip : Bool) (fs : FS) :
    Except RunErr FS × List (Nat × String) :=
  downloadLoop w unzip (YEAR_MAP.filter (fun x => years.contains x.1)) fs

/-- Modelled from the spec: with the unzip flag false, one year's download
stops after the top-level extraction of the archive into the working
directory — no nested-archive extraction, no folder flattening or
removal. -/
def topLevelExtractOnly (w : World) (fs : FS) (year : Nat)
    (resourceId : String) : Except RunErr FS :=
  match w.http (downloadUrl year resourceId) with
  | .error e => .error (.netErr e)
  | .ok r =>
    match w.zipOf r.content with
    | none => .error .badZipFile
    | some ar => .ok (extractall fs ar ["data"])

/-- Modelled from the spec: the inspection-only download run, applying only
the top-level extraction for each requested year. -/
def topLevelOnlyLoop (w : World) :
    List (Nat × String) → FS → Except RunErr FS × List (Nat × String)
  | [], fs => (.ok fs, [])
  | (y, rid) :: rest, fs =>
    match topLevelExtractOnly w fs y rid with
    | .error e => (.error e, [(y, rid)])
    | .ok fs1 =>
      let out := topLevelOnlyLoop w rest fs1
      (out.1, (y, rid) :: out.2)

/-! ## Database model and load_data -/

inductive UserType
  | casualMember
  | annualMember
deriving DecidableEq, Repr

inductive BikeModel
  | efitG5
  | iconic
  | efit
deriving DecidableEq, Repr

/-- One row of `tbs_trips` (and of the `read_csv` relation): the eleven
columns of the schema, each nullable as in SQL. -/
structure Row where
  tripId : Option Int
  tripDuration : Option Int
  startStationId : Option Int
  startTime : Option Int
  startStationName : Option String
  endStationId : Option Int
  endTime : Option Int
  endStationName : Option String
  bikeId : Option Int
  userType : Option UserType
  model : Option BikeModel
deriving DecidableEq, Repr

/-- Database state: the catalog's created type names, and the `tbs_trips`
table (`none` when not yet created). -/
structure DB where
  types : List String
  tbs_trips : Option (List Row)
deriving DecidableEq, Repr

inductive LogLevel
  | debug
  | info
deriving DecidableEq, Repr

structure LogEntry where
  level : LogLevel
  msg : String
deriving DecidableEq, Repr

inductive SqlErr
  | catalogException
deriving DecidableEq, Repr

/-- `CREATE TYPE name AS ENUM (...)`: raises `duckdb.CatalogException` when
the name is already taken.  Each statement autocommits: a successful first
statement persists even if a later one raises. -/
def createType (db : DB) (name : String) : Except SqlErr DB :=
  if db.types.contains name then .error .catalogException
  else .ok { db with types := db.types ++ [name] }

def enumExistsMsg : String := "`User Type` enum is already defined"

/-- The try/except at the top of `load_data`: create the `user` enum, then
the `bike` enum; a `duckdb.CatalogException` from either is caught and
logged at INFO, and the function continues. -/
def ensureEnums (db : DB) : DB × List LogEntry :=
  match createType db "user" with
  | .error .catalogException => (db, [⟨.info, enumExistsMsg⟩])
  | .ok db1 =>
    match createType db1 "bike" with
    | .error .catalogException => (db1, [⟨.info, enumExistsMsg⟩])
    | .ok db2 => (db2, [])

/-- `CREATE TABLE IF NOT EXISTS tbs_trips (...)`: a no-op when the table
exists, otherwise creates it empty. -/
def createTableIfNotExists (db : DB) : DB :=
  match db.tbs_trips with
  | some _ => db
  | none => { db with tbs_trips := some [] }

/-- SQL equality on the nullable INTEGER `"Trip Id"`: comparison with NULL
is never true (it is NULL, which `WHERE NOT EXISTS` treats as no match). -/
def sqlIntEq (a b : Option Int) : Bool :=
  match a, b with
  | some x, some y => x == y
  | _, _ => false

/-- The `NOT EXISTS (SELECT 1 FROM tbs_trips WHERE tbs_trips."Trip Id" =
new_data."Trip Id")` correlated subquery, against the table snapshot. -/
def tripIdPresent (table : List Row) (r : Row) : Bool :=
  table.any (fun t => sqlIntEq t.tripId r.tripId)

/-- The filtered `INSERT INTO tbs_trips SELECT ... FROM read_csv(...)`:
the subquery scans the table as it stood when the statement began, so every
batch row is filtered against the pre-insert snapshot only.  Returns the
new table and the inserted-row count reported by `fetchone`. -/
def insertNewRows (table : List Row) (newData : List Row) : List Row × Nat :=
  let newRows := newData.filter (fun r => !(tripIdPresent table r))
  (table ++ newRows, newRows.length)

structure LoadOut where
  db : DB
  logs : List LogEntry
  inserted : Nat
deriving DecidableEq, Repr

/-- `load_data`: enum creation under try/except, table creation if absent,
then the filtered bulk insert.  `csvRows` is the relation produced by
`read_csv('data/Bike share ridership 202*.csv', ignore_errors=true, ...,
union_by_name=true)`: all rows parsed from the matching files, in file
order.  `if num_rows:` tests the `fetchone` tuple `(n,)`, which is a
non-empty tuple and hence always truthy, so the INFO line always logs. -/
def load_data (db : DB) (csvRows : List Row) : LoadOut :=
  let p1 := ensureEnums db
  let db2 := createTableIfNotExists p1.1
  let table := db2.tbs_trips.getD []
  let ins := insertNewRows table csvRows
  { db := { db2 with tbs_trips := some ins.1 },
    logs := p1.2 ++
      [⟨.debug, "Creating table tbs_trips"⟩, ⟨.info, "Inserting new data"⟩,
       ⟨.info, "Inserted " ++ toString ins.2 ++ " rows"⟩],
    inserted := ins.2 }

/-! ## remove_csv -/

/-- `pathlib.PurePath.suffix`: the final component's extension from its
last dot, empty when there is no dot or the only dot is leading. -/
def pySuffix (name : String) : String :=
  let cs := name.toList
  let afterLastDot := (cs.reverse.takeWhile (fun c => c != '.')).length
  if afterLastDot == cs.length then ""
  else if cs.length - afterLastDot - 1 == 0 then ""
  else String.mk (cs.drop (cs.length - afterLastDot - 1))

/-- Does the file path end in a component whose suffix is `.csv`? -/
def fileSuffixCsv (p : Path) : Bool :=
  match p.getLast? with
  | some n => pySuffix n == ".csv"
  | none => false

/-- Is the file at `p` visited by `os.walk("data")`?  The walk starts at
`data` and discovers a file by listing its containing directory, so `p`
must lie strictly below `data` and every ancestor directory must exist. -/
def reachableUnderData (fs : FS) (p : Path) : Bool :=
  p.head? == some "data" && decide (2 ≤ p.length) &&
    (properAncestors p).all (fun d => dirExists fs d)

/-- `remove_csv`: walk `data` recursively and unlink every file whose
suffix is `.csv`. -/
def remove_csv (fs : FS) : FS :=
  { fs with
    files := fs.files.filter
      (fun e => !(reachableUnderData fs e.1 && fileSuffixCsv e.1)) }

/-! ## export_as_parquet -/

/-- Comparison on the nullable INTEGER sort key: ascending, NULLS LAST
(the DuckDB default for ascending order). -/
def tidLe (a b : Option Int) : Bool :=
  match a, b with
  | some x, some y => decide (x ≤ y)
  | some _, none => true
  | none, some _ => false
  | none, none => true

/-- The `ORDER BY "Trip Id"` row comparison. -/
def tripIdAscNullsLast (a b : Row) : Bool :=
  tidLe a.tripId b.tripId

structure ParquetFile where
  rows : List Row
  format : String
  codec : String
  compressionLevel : Nat
deriving DecidableEq, Repr

/-- The output files on disk, path to content. -/
abbrev Store := List (Path × ParquetFile)

/-- `COPY ... TO path`: write the file at `path` unconditionally, replacing
whatever was there. -/
def writeStore (store : Store) (p : Path) (f : ParquetFile) : Store :=
  store.filter (fun e => e.1 != p) ++ [(p, f)]

def parquetPath : Path := ["data", "tbs.parquet"]

def getStore (store : Store) (p : Path) : Option ParquetFile :=
  store.lookup p

/-- `export_as_parquet`: `COPY (SELECT * FROM tbs_trips ORDER BY "Trip Id")
TO "./data/tbs.parquet" (FORMAT parquet, CODEC zstd, COMPRESSION_LEVEL 3)`;
a missing table is a catalog error. -/
def export_as_parquet (db : DB) (store : Store) : Except SqlErr Store :=
  match db.tbs_trips with
  | none => .error .catalogException
  | some table =>
    .ok (writeStore store parquetPath
      ⟨table.mergeSort tripIdAscNullsLast, "parquet", "zstd", 3⟩)

/-! ## Auxiliary definitions used to state and instantiate the claims -/

/-- Number of NULL-`"Trip Id"` rows in a relation. -/
def countNullId (l : List Row) : Nat :=
  l.countP (fun r => r.tripId.isNone)

/-- A row with the given trip id and duration, all other columns NULL. -/
def sampleRow (i : Option Int) (d : Option Int) : Row :=
  ⟨i, d, none, none, none, none, none, none, none, none, none⟩

/-- A fresh database: empty catalog, `tbs_trips` not yet created. -/
def emptyDB : DB := ⟨[], none⟩

/-- A world whose server replies 404 Not Found, with a body that happens to
be a valid zip archive holding one file. -/
def w404C3 : World :=
  ⟨fun _ => .ok ⟨404, 7⟩,
   fun c => if c == 7 then some [(["f.csv"], 1)] else none⟩

/-- A world whose server is unreachable: every GET times out. -/
def wFailC3 : World :=
  ⟨fun _ => .error .timeoutError, fun _ => none⟩

/-- A world whose 2023 archive extracts the year folder with a nested
subdirectory holding the CSV. -/
def wNestedC6 : World :=
  ⟨fun _ => .ok ⟨200, 5⟩,
   fun c =>
     if c == 5 then some [(["bikeshare-ridership-2023", "sub", "x.csv"], 9)]
     else none⟩

/-- A world for the C7 witness: content 5 is a zip holding one CSV. -/
def wNestedC7 : World :=
  ⟨fun _ => .error .timeoutError,
   fun c => if c == 5 then some [(["x.csv"], 9)] else none⟩

/-- Every ancestor directory of every file and directory exists, as on any
real filesystem (`os.walk` discovers a file only by listing its parent). -/
def wellFormed (fs : FS) : Bool :=
  fs.files.all (fun e => (properAncestors e.1).all (fun d => dirExists fs d)) &&
  fs.dirs.all (fun p => (properAncestors p).all (fun d => dirExists fs d))

/-! ## Lemmas about the load stage -/

theorem sqlIntEq_none_right (a : Option Int) : sqlIntEq a none = false := by
  cases a <;> rfl

theorem sqlIntEq_some_right (a : Option Int) (n : Int) :
    sqlIntEq a (some n) = (a == some n) := by
  cases a <;> rfl

theorem tripIdPresent_of_none (t : List Row) (r : Row) (h : r.tripId = none) :
    tripIdPresent t r = false := by
  simp [tripIdPresent, h, sqlIntEq_none_right]

theorem tripIdPresent_append (a b : List Row) (r : Row) :
    tripIdPresent (a ++ b) r = (tripIdPresent a r || tripIdPresent b r) := by
  unfold tripIdPresent
  exact List.any_append

theorem createType_ok_tbs (db : DB) (name : String) (db' : DB)
    (h : createType db name = .ok db') : db'.tbs_trips = db.tbs_trips := by
  unfold createType at h
  split at h
  · exact absurd h (by simp)
  · cases h
    rfl

theorem ensureEnums_tbs (db : DB) :
    (ensureEnums db).1.tbs_trips = db.tbs_trips := by
  unfold ensureEnums
  split
  · rfl
  next db1 hu =>
    split
    next hb =>
      show db1.tbs_trips = db.tbs_trips
      rw [createType_ok_tbs db "user" db1 hu]
    next db2 hb =>
      show db2.tbs_trips = db.tbs_trips
      rw [createType_ok_tbs db1 "bike" db2 hb, createType_ok_tbs db "user" db1 hu]

theorem ensureEnums_user_exists (db : DB) (h : db.types.contains "user" = true) :
    ensureEnums db = (db, [⟨.info, enumExistsMsg⟩]) := by
  unfold ensureEnums
  have hc : createType db "user" = .error .catalogException := by
    unfold createType
    rw [if_pos h]
  rw [hc]

theorem createTable_getD (db : DB) :
    (createTableIfNotExists db).tbs_trips.getD [] = db.tbs_trips.getD [] := by
  unfold createTableIfNotExists
  cases h : db.tbs_trips <;> simp [h]

theorem createTable_types (db : DB) :
    (createTableIfNotExists db).types = db.types := by
  unfold createTableIfNotExists
  cases db.tbs_trips <;> rfl

theorem load_table_eq (db : DB) (rows : List Row) :
    (load_data db rows).db.tbs_trips =
      some (insertNewRows (db.tbs_trips.getD []) rows).1 := by
  show some (insertNewRows
      ((createTableIfNotExists (ensureEnums db).1).tbs_trips.getD []) rows).1 = _
  rw [createTable_getD, ensureEnums_tbs]

theorem load_inserted_eq (db : DB) (rows : List Row) :
    (load_data db rows).inserted =
      (insertNewRows (db.tbs_trips.getD []) rows).2 := by
  show (insertNewRows
      ((createTableIfNotExists (ensureEnums db).1).tbs_trips.getD []) rows).2 = _
  rw [createTable_getD, ensureEnums_tbs]

theorem insertNewRows_fst (t new : List Row) :
    (insertNewRows t new).1 = t ++ new.filter (fun r => !(tripIdPresent t r)) :=
  rfl

theorem insertNewRows_snd (t new : List Row) :
    (insertNewRows t new).2 =
      (new.filter (fun r => !(tripIdPresent t r))).length :=
  rfl

theorem countNullId_filter_dedup (t rows : List Row) :
    countNullId (rows.filter (fun r => !(tripIdPresent t r))) =
      countNullId rows := by
  unfold countNullId
  rw [List.countP_filter]
  apply List.countP_congr
  intro r _
  cases h : r.tripId
  · simp [h, tripIdPresent_of_none t r h]
  · simp [h]

theorem tripIdPresent_some (t : List Row) (r : Row) (n : Int)
    (h : r.tripId = some n) :
    tripIdPresent t r = t.any (fun x => x.tripId == some n) := by
  unfold tripIdPresent
  simp only [h, sqlIntEq_some_right]

theorem filter_id_insertNewRows (t new : List Row) (n : Int)
    (ht : t.filter (fun r => r.tripId == some n) = []) :
    (insertNewRows t new).1.filter (fun r => r.tripId == some n) =
      new.filter (fun r => r.tripId == some n) := by
  rw [insertNewRows_fst, List.filter_append, ht, List.nil_append,
    List.filter_filter]
  have hfun : (fun a : Row => (a.tripId == some n) && !(tripIdPresent t a)) =
      (fun a : Row => a.tripId == some n) := by
    funext a
    cases ha : (a.tripId == some n) with
    | false => simp
    | true =>
      have ha' : a.tripId = some n := by simpa using ha
      have hp : tripIdPresent t a = false := by
        rw [tripIdPresent_some t a n ha', List.any_eq_false]
        intro x hx
        have := List.filter_eq_nil_iff.mp ht x hx
        simpa using this
      rw [hp]
      simp
  rw [hfun]

theorem filter_id_insertNewRows_present (t new : List Row) (n : Int) (r1 : Row)
    (hr1 : r1 ∈ t) (hid : r1.tripId = some n) :
    (insertNewRows t new).1.filter (fun r => r.tripId == some n) =
      t.filter (fun r => r.tripId == some n) := by
  rw [insertNewRows_fst, List.filter_append]
  have hnil : (new.filter (fun r => !(tripIdPresent t r))).filter
      (fun r => r.tripId == some n) = [] := by
    rw [List.filter_filter]
    have hfun : (fun a : Row => (a.tripId == some n) && !(tripIdPresent t a)) =
        (fun _ : Row => false) := by
      funext a
      cases ha : (a.tripId == some n) with
      | false => simp
      | true =>
        have ha' : a.tripId = some n := by simpa using ha
        have hp : tripIdPresent t a = true := by
          rw [tripIdPresent_some t a n ha']
          exact List.any_eq_true.mpr ⟨r1, hr1, by simp [hid]⟩
        rw [hp]
        simp
    rw [hfun]
    simp
  rw [hnil, List.append_nil]

theorem mem_id_insertNewRows (t new : List Row) (m : Int) :
    (∃ r ∈ (insertNewRows t new).1, r.tripId = some m) ↔
      ((∃ r ∈ t, r.tripId = some m) ∨ (∃ r ∈ new, r.tripId = some m)) := by
  rw [insertNewRows_fst]
  constructor
  · rintro ⟨r, hr, hid⟩
    rcases List.mem_append.mp hr with hmem | hmem
    · exact Or.inl ⟨r, hmem, hid⟩
    · exact Or.inr ⟨r, (List.mem_filter.mp hmem).1, hid⟩
  · rintro (⟨r, hr, hid⟩ | ⟨r, hr, hid⟩)
    · exact ⟨r, List.mem_append_left _ hr, hid⟩
    · by_cases hc : tripIdPresent t r = true
      · rw [tripIdPresent_some t r m hid] at hc
        rcases List.any_eq_true.mp hc with ⟨x, hx, hbeq⟩
        exact ⟨x, List.mem_append_left _ hx, by simpa using hbeq⟩
      · refine ⟨r, List.mem_append_right _ ?_, hid⟩
        rw [Bool.not_eq_true] at hc
        exact List.mem_filter.mpr ⟨hr, by simp [hc]⟩

/-! ## Theorems for claims C10 and C2 -/

/-- Claim C10: the dedup filter compares `"Trip Id"` with SQL equality,
which is never true against NULL, so a NULL-identifier row is never
excluded: it is inserted on every load run in which it appears in the
input, and loading the same input twice accumulates every NULL-identifier
input row twice over. -/
theorem C10_null_id_rows_always_inserted (db : DB) (rows : List Row)
    (table : List Row) (r : Row) (hr : r ∈ rows) (hnull : r.tripId = none) :
    tripIdPresent table r = false ∧
    r ∈ (load_data db rows).db.tbs_trips.getD [] ∧
    countNullId ((load_data (load_data db rows).db rows).db.tbs_trips.getD []) =
      countNullId (db.tbs_trips.getD []) + 2 * countNullId rows := by
  refine ⟨tripIdPresent_of_none table r hnull, ?_, ?_⟩
  · rw [load_table_eq]
    simp only [Option.getD_some, insertNewRows_fst]
    refine List.mem_append_right _ ?_
    exact List.mem_filter.mpr ⟨hr, by simp [tripIdPresent_of_none _ _ hnull]⟩
  · rw [load_table_eq, load_table_eq]
    simp only [Option.getD_some, insertNewRows_fst]
    unfold countNullId
    rw [List.countP_append, List.countP_append]
    have h1 := countNullId_filter_dedup (db.tbs_trips.getD []) rows
    have h2 := countNullId_filter_dedup
      ((db.tbs_trips.getD []) ++
        rows.filter (fun r => !(tripIdPresent (db.tbs_trips.getD []) r))) rows
    unfold countNullId at h1 h2
    omega

/-- Claim C10 witness at a concrete input. -/
theorem C10_witness :
    tripIdPresent [] (sampleRow none none) = false ∧
    sampleRow none none ∈
      (load_data emptyDB [sampleRow none none]).db.tbs_trips.getD [] ∧
    countNullId ((load_data (load_data emptyDB [sampleRow none none]).db
        [sampleRow none none]).db.tbs_trips.getD []) =
      countNullId (emptyDB.tbs_trips.getD []) +
        2 * countNullId [sampleRow none none] :=
  C10_null_id_rows_always_inserted emptyDB [sampleRow none none] []
    (sampleRow none none) (by decide) (by decide)

/-- Claim C2 (amended): provided every input row has a non-NULL trip
identifier, load is idempotent — the second run over the same rows inserts
(and reports) zero rows and leaves the table unchanged. -/
theorem C2_load_idempotent_nonnull (db : DB) (rows : List Row)
    (h : ∀ r ∈ rows, r.tripId ≠ none) :
    (load_data (load_data db rows).db rows).inserted = 0 ∧
    (load_data (load_data db rows).db rows).db.tbs_trips =
      (load_data db rows).db.tbs_trips := by
  have htab := load_table_eq db rows
  have hpres : ∀ r ∈ rows,
      tripIdPresent ((load_data db rows).db.tbs_trips.getD []) r = true := by
    intro r hrmem
    rw [htab]
    simp only [Option.getD_some, insertNewRows_fst]
    rw [tripIdPresent_append]
    by_cases hc : tripIdPresent (db.tbs_trips.getD []) r = true
    · rw [hc]
      rfl
    · have hrf : r ∈ rows.filter
          (fun x => !(tripIdPresent (db.tbs_trips.getD []) x)) := by
        refine List.mem_filter.mpr ⟨hrmem, ?_⟩
        rw [Bool.not_eq_true] at hc
        simp [hc]
      have h2 : tripIdPresent (rows.filter
          (fun x => !(tripIdPresent (db.tbs_trips.getD []) x))) r = true := by
        cases hid : r.tripId with
        | none => exact absurd hid (h r hrmem)
        | some n =>
          refine List.any_eq_true.mpr ⟨r, hrf, ?_⟩
          rw [hid]
          simp [sqlIntEq]
      rw [h2]
      simp
  have hfilter : (rows.filter
      (fun r => !(tripIdPresent ((load_data db rows).db.tbs_trips.getD []) r))) = [] := by
    rw [List.filter_eq_nil_iff]
    intro r hrmem
    simp [hpres r hrmem]
  constructor
  · rw [load_inserted_eq, insertNewRows_snd, hfilter]
    rfl
  · rw [load_table_eq (load_data db rows).db rows]
    rw [insertNewRows_fst, hfilter, List.append_nil, htab]
    simp

/-- Claim C2 witness for the amended statement at a concrete input. -/
theorem C2_witness :
    (load_data (load_data emptyDB [sampleRow (some 7) none]).db
        [sampleRow (some 7) none]).inserted = 0 ∧
    (load_data (load_data emptyDB [sampleRow (some 7) none]).db
        [sampleRow (some 7) none]).db.tbs_trips =
      (load_data emptyDB [sampleRow (some 7) none]).db.tbs_trips :=
  C2_load_idempotent_nonnull emptyDB [sampleRow (some 7) none] (by decide)

/-- Claim C2 (counterexample): with a single NULL-trip-id input row, the
second load over the same input reports one inserted row, not zero, and
the final row count differs from a single run's. -/
theorem C2_counterexample :
    (load_data (load_data emptyDB [sampleRow none none]).db
        [sampleRow none none]).inserted = 1 ∧
    ¬ (((load_data (load_data emptyDB [sampleRow none none]).db
          [sampleRow none none]).db.tbs_trips.getD []).length =
        ((load_data emptyDB [sampleRow none none]).db.tbs_trips.getD []).length) := by
  constructor
  · rfl
  · decide

/-! ## Theorems for claim C1 -/

/-- Claim C1 (counterexample): two files both containing trip id 1 with
differing durations, loaded by a single run.  The NOT EXISTS filter scans
only the pre-statement table snapshot, so both versions are inserted: the
table ends with two rows carrying that identifier, not one. -/
theorem C1_counterexample :
    ((load_data emptyDB ([sampleRow (some 1) (some 100)] ++
        [sampleRow (some 1) (some 200)])).db.tbs_trips.getD []).countP
        (fun r => r.tripId == some 1) = 2 ∧
    ¬ (((load_data emptyDB ([sampleRow (some 1) (some 100)] ++
        [sampleRow (some 1) (some 200)])).db.tbs_trips.getD []).countP
        (fun r => r.tripId == some 1) = 1) := by
  decide

/-- Claim C1 (amended): when the overlapping files are loaded by separate
runs, exactly one row with the shared identifier survives — the version
loaded first — and after any load the distinct identifiers present in the
table are exactly those of the prior table and the inputs combined. -/
theorem C1_sequential_dedup (db : DB) (f1 f2 : List Row) (n : Int) (r1 : Row)
    (h1 : (db.tbs_trips.getD []).filter (fun r => r.tripId == some n) = [])
    (h2 : f1.filter (fun r => r.tripId == some n) = [r1]) :
    ((load_data (load_data db f1).db f2).db.tbs_trips.getD []).filter
        (fun r => r.tripId == some n) = [r1] ∧
    ∀ m : Int,
      (∃ r ∈ (load_data (load_data db f1).db f2).db.tbs_trips.getD [],
          r.tripId = some m) ↔
        ((∃ r ∈ db.tbs_trips.getD [], r.tripId = some m) ∨
          (∃ r ∈ f1, r.tripId = some m) ∨ (∃ r ∈ f2, r.tripId = some m)) := by
  have htab1 := load_table_eq db f1
  have htab2 := load_table_eq (load_data db f1).db f2
  have hT1 : ((load_data db f1).db.tbs_trips.getD []).filter
      (fun r => r.tripId == some n) = [r1] := by
    rw [htab1]
    simp only [Option.getD_some]
    rw [filter_id_insertNewRows _ _ _ h1, h2]
  have hr1mem : r1 ∈ (load_data db f1).db.tbs_trips.getD [] ∧
      r1.tripId = some n := by
    have hmem : r1 ∈ ((load_data db f1).db.tbs_trips.getD []).filter
        (fun r => r.tripId == some n) := by
      rw [hT1]
      exact List.mem_singleton_self r1
    have hm := List.mem_filter.mp hmem
    exact ⟨hm.1, by simpa using hm.2⟩
  constructor
  · rw [htab2]
    simp only [Option.getD_some]
    rw [filter_id_insertNewRows_present _ _ _ r1 hr1mem.1 hr1mem.2, hT1]
  · intro m
    rw [htab2]
    simp only [Option.getD_some]
    rw [mem_id_insertNewRows]
    rw [htab1]
    simp only [Option.getD_some]
    rw [mem_id_insertNewRows]
    exact or_assoc

/-- Claim C1 witness for the amended statement at a concrete input. -/
theorem C1_witness :
    ((load_data (load_data emptyDB [sampleRow (some 3) (some 10)]).db
        [sampleRow (some 3) (some 20)]).db.tbs_trips.getD []).filter
        (fun r => r.tripId == some 3) = [sampleRow (some 3) (some 10)] ∧
    ∀ m : Int,
      (∃ r ∈ (load_data (load_data emptyDB [sampleRow (some 3) (some 10)]).db
          [sampleRow (some 3) (some 20)]).db.tbs_trips.getD [],
          r.tripId = some m) ↔
        ((∃ r ∈ emptyDB.tbs_trips.getD [], r.tripId = some m) ∨
          (∃ r ∈ [sampleRow (some 3) (some 10)], r.tripId = some m) ∨
          (∃ r ∈ [sampleRow (some 3) (some 20)], r.tripId = some m)) :=
  C1_sequential_dedup emptyDB [sampleRow (some 3) (some 10)]
    [sampleRow (some 3) (some 20)] 3 (sampleRow (some 3) (some 10))
    (by decide) (by decide)

/-! ## Theorems for claim C4 -/

/-- Claim C4: with both categorical types already in the catalog, the first
CREATE TYPE raises duckdb.CatalogException, load_data catches it and logs
at informational level, both types remain, and the run continues to table
creation and the filtered insert rather than aborting. -/
theorem C4_enum_exists_caught (db : DB) (rows : List Row)
    (hu : db.types.contains "user" = true)
    (hb : db.types.contains "bike" = true) :
    (load_data db rows).db.types = db.types ∧
    (load_data db rows).db.types.contains "user" = true ∧
    (load_data db rows).db.types.contains "bike" = true ∧
    ⟨.info, enumExistsMsg⟩ ∈ (load_data db rows).logs ∧
    (load_data db rows).db.tbs_trips =
      some (insertNewRows (db.tbs_trips.getD []) rows).1 ∧
    (load_data db rows).inserted =
      (insertNewRows (db.tbs_trips.getD []) rows).2 := by
  have he := ensureEnums_user_exists db hu
  have htypes : (load_data db rows).db.types = db.types := by
    show (createTableIfNotExists (ensureEnums db).1).types = db.types
    rw [createTable_types, he]
  refine ⟨htypes, ?_, ?_, ?_, load_table_eq db rows, load_inserted_eq db rows⟩
  · rw [htypes]
    exact hu
  · rw [htypes]
    exact hb
  · have hmem2 : (⟨.info, enumExistsMsg⟩ : LogEntry) ∈ (ensureEnums db).2 := by
      rw [he]
      exact List.mem_singleton_self _
    exact List.mem_append_left _ hmem2

/-! ## Lemmas about association-list lookups -/

theorem lookup_filter_append {β : Type} (s : List (Path × β)) (p : Path)
    (f : β) :
    List.lookup p ((s.filter (fun e => e.1 != p)) ++ [(p, f)]) = some f := by
  induction s with
  | nil => simp [List.lookup]
  | cons e s ih =>
    by_cases h : e.1 = p
    · rw [List.filter_cons_of_neg (by simp [h])]
      exact ih
    · rw [List.filter_cons_of_pos (by simp [h])]
      rw [List.cons_append]
      have hpair : (e.1, e.2) = e := rfl
      rw [← hpair, List.lookup_cons]
      simp [show (p == e.1) = false by simp [Ne.symm h]]
      exact ih

theorem lookup_filter_ne {β : Type} (s : List (Path × β)) (p q : Path) (f : β)
    (hne : q ≠ p) :
    List.lookup q ((s.filter (fun e => e.1 != p)) ++ [(p, f)]) =
      List.lookup q s := by
  induction s with
  | nil => simp [List.lookup, show (q == p) = false by simp [hne]]
  | cons e s ih =>
    by_cases h : e.1 = p
    · rw [List.filter_cons_of_neg (by simp [h])]
      rw [ih]
      have hpair : (e.1, e.2) = e := rfl
      rw [← hpair, List.lookup_cons]
      simp [show (q == e.1) = false by simp [h ▸ hne]]
    · rw [List.filter_cons_of_pos (by simp [h])]
      rw [List.cons_append]
      have hpair : (e.1, e.2) = e := rfl
      rw [← hpair, List.lookup_cons, List.lookup_cons]
      cases hq : (q == e.1) <;> simp [ih]

/-! ## Theorems for claim C8 -/

theorem tidLe_trans (a b c : Option Int) (hab : tidLe a b = true)
    (hbc : tidLe b c = true) : tidLe a c = true := by
  unfold tidLe at *
  cases a <;> cases b <;> cases c <;> simp_all <;> omega

theorem tidLe_total (a b : Option Int) :
    (tidLe a b || tidLe b a) = true := by
  unfold tidLe
  cases a <;> cases b <;> simp <;> omega

theorem tripIdAscNullsLast_trans (a b c : Row)
    (hab : tripIdAscNullsLast a b = true)
    (hbc : tripIdAscNullsLast b c = true) : tripIdAscNullsLast a c = true :=
  tidLe_trans a.tripId b.tripId c.tripId hab hbc

theorem tripIdAscNullsLast_total (a b : Row) :
    (tripIdAscNullsLast a b || tripIdAscNullsLast b a) = true :=
  tidLe_total a.tripId b.tripId

theorem getStore_writeStore (s : Store) (p : Path) (f : ParquetFile) :
    getStore (writeStore s p f) p = some f :=
  lookup_filter_append s p f

/-- Claim C8: export succeeds on any state where the table exists and
writes, at the fixed parquet path and unconditionally replacing any prior
content of the store, a zstd-level-3 parquet file holding exactly the
table's rows (a permutation with equal length) sorted ascending by trip
identifier. -/
theorem C8_export_sorted_complete (db : DB) (store : Store)
    (table : List Row) (h : db.tbs_trips = some table) :
    ∃ f, export_as_parquet db store = .ok (writeStore store parquetPath f) ∧
      getStore (writeStore store parquetPath f) parquetPath = some f ∧
      f.rows.length = table.length ∧
      f.rows.Perm table ∧
      List.Pairwise (fun a b => tripIdAscNullsLast a b = true) f.rows ∧
      f.format = "parquet" ∧ f.codec = "zstd" ∧ f.compressionLevel = 3 := by
  refine ⟨⟨table.mergeSort tripIdAscNullsLast, "parquet", "zstd", 3⟩,
    ?_, getStore_writeStore store parquetPath _,
    (List.mergeSort_perm table _).length_eq,
    List.mergeSort_perm table _,
    List.sorted_mergeSort tripIdAscNullsLast_trans tripIdAscNullsLast_total
      table, rfl, rfl, rfl⟩
  unfold export_as_parquet
  rw [h]

/-- Claim C8 witness at a concrete table and store. -/
theorem C8_witness :
    ∃ f, export_as_parquet
        (DB.mk [] (some [sampleRow (some 2) none, sampleRow (some 1) none])) [] =
      .ok (writeStore [] parquetPath f) ∧
      getStore (writeStore [] parquetPath f) parquetPath = some f ∧
      f.rows.length = [sampleRow (some 2) none, sampleRow (some 1) none].length ∧
      f.rows.Perm [sampleRow (some 2) none, sampleRow (some 1) none] ∧
      List.Pairwise (fun a b => tripIdAscNullsLast a b = true) f.rows ∧
      f.format = "parquet" ∧ f.codec = "zstd" ∧ f.compressionLevel = 3 :=
  C8_export_sorted_complete
    (DB.mk [] (some [sampleRow (some 2) none, sampleRow (some 1) none])) []
    [sampleRow (some 2) none, sampleRow (some 1) none] rfl

/-! ## Theorems for claim C9 -/

/-- Claim C9: on a well-formed filesystem (every file's ancestor
directories exist, so the walk reaches it), remove_csv leaves no file with
the .csv suffix anywhere under the data directory, and deletes no file
without the .csv suffix. -/
theorem C9_remove_csv (fs : FS) (hwf : wellFormed fs = true) :
    (∀ e ∈ (remove_csv fs).files,
      ¬(e.1.head? = some "data" ∧ 2 ≤ e.1.length ∧ fileSuffixCsv e.1 = true)) ∧
    (∀ e ∈ fs.files, fileSuffixCsv e.1 = false → e ∈ (remove_csv fs).files) := by
  have hfiles : (remove_csv fs).files = fs.files.filter
      (fun e => !(reachableUnderData fs e.1 && fileSuffixCsv e.1)) := rfl
  constructor
  · rintro e he ⟨hhead, hlen, hcsv⟩
    rw [hfiles] at he
    have hmem := List.mem_filter.mp he
    have hanc : (properAncestors e.1).all (fun d => dirExists fs d) = true := by
      unfold wellFormed at hwf
      rw [Bool.and_eq_true] at hwf
      exact List.all_eq_true.mp hwf.1 e hmem.1
    have hreach : reachableUnderData fs e.1 = true := by
      unfold reachableUnderData
      rw [hanc]
      simp [hhead, hlen]
    rw [hreach, hcsv] at hmem
    simp at hmem
  · intro e he hcsv
    rw [hfiles]
    exact List.mem_filter.mpr ⟨he, by simp [hcsv]⟩

/-- Claim C9 witness at a concrete filesystem. -/
theorem C9_witness :
    (∀ e ∈ (remove_csv (FS.mk [(["data", "a.csv"], 1), (["data", "b.txt"], 2)]
        [["data"]])).files,
      ¬(e.1.head? = some "data" ∧ 2 ≤ e.1.length ∧ fileSuffixCsv e.1 = true)) ∧
    (∀ e ∈ (FS.mk [(["data", "a.csv"], 1), (["data", "b.txt"], 2)]
        [["data"]]).files,
      fileSuffixCsv e.1 = false →
        e ∈ (remove_csv (FS.mk [(["data", "a.csv"], 1), (["data", "b.txt"], 2)]
          [["data"]])).files) :=
  C9_remove_csv (FS.mk [(["data", "a.csv"], 1), (["data", "b.txt"], 2)]
    [["data"]]) (by decide)

/-! ## Theorems for claim C5 -/

theorem downloadYear_unzip_false (w : World) (fs : FS) (year : Nat)
    (resourceId : String) :
    downloadYear w false fs year resourceId =
      topLevelExtractOnly w fs year resourceId := by
  unfold downloadYear topLevelExtractOnly
  cases w.http (downloadUrl year resourceId) with
  | error e => rfl
  | ok r =>
    cases w.zipOf r.content with
    | none => rfl
    | some ar => rfl

/-- Claim C5: a download run with the unzip flag false is exactly the
inspection-only run of the spec — for every requested year it performs the
top-level extraction of the archive into the working directory and nothing
else: no nested-archive extraction, no subfolder flattening, no folder
removal. -/
theorem C5_unzip_false_top_level_only (w : World) (years : List Nat) (fs : FS) :
    download_data w years false fs =
      topLevelOnlyLoop w (YEAR_MAP.filter (fun x => years.contains x.1)) fs := by
  unfold download_data
  generalize YEAR_MAP.filter (fun x => years.contains x.1) = l
  induction l generalizing fs with
  | nil => rfl
  | cons x rest ih =>
    cases x with
    | mk y rid =>
      unfold downloadLoop topLevelOnlyLoop
      rw [downloadYear_unzip_false]
      cases topLevelExtractOnly w fs y rid with
      | error e => rfl
      | ok fs1 =>
        simp only []
        rw [ih fs1]

/-! ## Theorems for claim C3 -/

theorem downloadLoop_trace_sublist (w : World) (u : Bool)
    (l : List (Nat × String)) (fs : FS) :
    (downloadLoop w u l fs).2.Sublist l := by
  induction l generalizing fs with
  | nil => simp [downloadLoop]
  | cons x rest ih =>
    cases x with
    | mk y rid =>
      unfold downloadLoop
      cases downloadYear w u fs y rid with
      | error e =>
        exact (List.nil_sublist _).cons₂ _
      | ok fs1 =>
        exact (ih fs1).cons₂ _

theorem downloadLoop_error_of_fail (w : World) (u : Bool)
    (l : List (Nat × String)) (fs : FS) (y : Nat) (rid : String)
    (hmem : (y, rid) ∈ l)
    (hfail : (∃ e, w.http (downloadUrl y rid) = .error e) ∨
      (∃ r, w.http (downloadUrl y rid) = .ok r ∧ w.zipOf r.content = none)) :
    ∃ er, (downloadLoop w u l fs).1 = .error er := by
  induction l generalizing fs with
  | nil => cases hmem
  | cons x rest ih =>
    cases x with
    | mk y0 rid0 =>
      unfold downloadLoop
      cases hdy : downloadYear w u fs y0 rid0 with
      | error e => exact ⟨e, rfl⟩
      | ok fs1 =>
        rcases List.mem_cons.mp hmem with heq | hrest
        · exfalso
          cases heq
          unfold downloadYear at hdy
          rcases hfail with ⟨e, he⟩ | ⟨r, hr, hz⟩
          · rw [he] at hdy
            simp at hdy
          · rw [hr] at hdy
            simp only [] at hdy
            rw [hz] at hdy
            simp at hdy
        · exact ih fs1 hrest

theorem download_requests_nodup (years : List Nat) :
    (YEAR_MAP.filter (fun x => years.contains x.1)).Nodup := by
  have hsub : (YEAR_MAP.filter (fun x => years.contains x.1)).Sublist
      YEAR_MAP := List.filter_sublist _
  refine hsub.nodup ?_
  have hyears : (YEAR_MAP.map Prod.fst).Nodup := by decide
  exact hyears.of_map Prod.fst

/-- Claim C3 (counterexample): the code never checks the HTTP status code.
With a 404 response whose body is a valid zip archive, the download run
completes successfully instead of propagating an error. -/
theorem C3_counterexample :
    w404C3.http (downloadUrl 2021 "ddc039f6-07fa-47a3-a707-0121ade3b307") =
      .ok ⟨404, 7⟩ ∧
    (download_data w404C3 [2021] true (FS.mk [] [])).1 =
      .ok (FS.mk [(["data", "f.csv"], 1)] [["data"]]) := by
  exact ⟨rfl, rfl⟩

/-- Claim C3 (amended): a network error on any requested year's GET makes
the download run abort with an error, with no retry — no URL is requested
twice; a non-success status is itself unchecked, and such a response aborts
the run only when its body fails to parse as a zip archive, again with no
retry. -/
theorem C3_netfail_propagates_no_retry (w : World) (years : List Nat)
    (fs : FS) (u : Bool) (y : Nat) (rid : String)
    (hmem : (y, rid) ∈ YEAR_MAP.filter (fun x => years.contains x.1))
    (hfail : (∃ e, w.http (downloadUrl y rid) = .error e) ∨
      (∃ r, w.http (downloadUrl y rid) = .ok r ∧ w.zipOf r.content = none)) :
    (∃ er, (download_data w years u fs).1 = .error er) ∧
    (download_data w years u fs).2.Nodup := by
  constructor
  · exact downloadLoop_error_of_fail w u _ fs y rid hmem hfail
  · exact (downloadLoop_trace_sublist w u _ fs).nodup
      (download_requests_nodup years)

/-- Claim C3 witness for the amended statement at a concrete world. -/
theorem C3_witness :
    (∃ er, (download_data wFailC3 [2021] true (FS.mk [] [])).1 = .error er) ∧
    (download_data wFailC3 [2021] true (FS.mk [] [])).2.Nodup :=
  C3_netfail_propagates_no_retry wFailC3 [2021] (FS.mk [] []) true
    2021 "ddc039f6-07fa-47a3-a707-0121ade3b307" (by decide)
    (Or.inl ⟨.timeoutError, rfl⟩)

/-! ## Lemmas about filesystem primitives -/

theorem lookup_filter_self {β : Type} (l : List (Path × β)) (p : Path) :
    List.lookup p (l.filter (fun e => e.1 != p)) = none := by
  induction l with
  | nil => rfl
  | cons e l ih =>
    by_cases h : e.1 = p
    · rw [List.filter_cons_of_neg (by simp [h])]
      exact ih
    · rw [List.filter_cons_of_pos (by simp [h])]
      have hpair : (e.1, e.2) = e := rfl
      rw [← hpair, List.lookup_cons,
        show (p == e.1) = false by simp [Ne.symm h]]
      exact ih

theorem lookup_filter_other {β : Type} (l : List (Path × β)) (p q : Path)
    (h : q ≠ p) :
    List.lookup q (l.filter (fun e => e.1 != p)) = List.lookup q l := by
  induction l with
  | nil => rfl
  | cons e l ih =>
    by_cases he : e.1 = p
    · rw [List.filter_cons_of_neg (by simp [he])]
      rw [ih]
      have hpair : (e.1, e.2) = e := rfl
      rw [← hpair, List.lookup_cons,
        show (q == e.1) = false by simp [he ▸ h]]
    · rw [List.filter_cons_of_pos (by simp [he])]
      have hpair : (e.1, e.2) = e := rfl
      rw [← hpair, List.lookup_cons, List.lookup_cons]
      cases hq : (q == e.1)
      · exact ih
      · rfl

theorem getFile_writeFile_self (fs : FS) (p : Path) (d : Nat) :
    getFile (writeFile fs p d) p = some d :=
  lookup_filter_append fs.files p d

theorem getFile_writeFile_ne (fs : FS) (p q : Path) (d : Nat) (h : q ≠ p) :
    getFile (writeFile fs p d) q = getFile fs q :=
  lookup_filter_ne fs.files p q d h

theorem getFile_removeFile_self (fs : FS) (p : Path) :
    getFile (removeFile fs p) p = none :=
  lookup_filter_self fs.files p

theorem getFile_removeFile_ne (fs : FS) (p q : Path) (h : q ≠ p) :
    getFile (removeFile fs p) q = getFile fs q :=
  lookup_filter_other fs.files p q h

theorem mkdirs_files (fs : FS) (ps : List Path) :
    (mkdirs fs ps).files = fs.files := by
  induction ps generalizing fs with
  | nil => rfl
  | cons p ps ih =>
    unfold mkdirs at *
    rw [List.foldl_cons, ih]
    unfold addDir
    split
    · rfl
    · rfl

theorem getFile_extractEntry_ne (dest : Path) (fs : FS) (e : Path × Nat)
    (q : Path) (h : q ≠ dest ++ e.1) :
    getFile (extractEntry dest fs e) q = getFile fs q := by
  unfold extractEntry
  rw [getFile_writeFile_ne _ _ _ _ h]
  unfold getFile
  rw [mkdirs_files]

theorem foldl_extract_frame (dest : Path) (ar : Archive) (fs : FS) (q : Path)
    (h : ∀ e ∈ ar, q ≠ dest ++ e.1) :
    getFile (ar.foldl (extractEntry dest) fs) q = getFile fs q := by
  induction ar generalizing fs with
  | nil => rfl
  | cons a ar ih =>
    rw [List.foldl_cons]
    rw [ih _ (fun e he => h e (List.mem_cons_of_mem a he))]
    exact getFile_extractEntry_ne dest fs a q (h a (List.mem_cons_self a ar))

theorem getFile_foldl_extract (dest : Path) (ar : Archive) (fs : FS)
    (e : Path × Nat) (he : e ∈ ar) (hnd : (ar.map Prod.fst).Nodup) :
    getFile (ar.foldl (extractEntry dest) fs) (dest ++ e.1) = some e.2 := by
  induction ar generalizing fs with
  | nil => cases he
  | cons a ar ih =>
    rw [List.foldl_cons]
    rcases List.mem_cons.mp he with heq | hrest
    · subst heq
      have hnot : ∀ x ∈ ar, (dest ++ e.1) ≠ dest ++ x.1 := by
        intro x hx hcontra
        have hfst : e.1 = x.1 := List.append_cancel_left hcontra
        have hin : e.1 ∈ ar.map Prod.fst := hfst ▸ List.mem_map_of_mem _ hx
        exact (List.nodup_cons.mp hnd).1 hin
      rw [foldl_extract_frame dest ar _ _ hnot]
      exact getFile_writeFile_self _ _ _
    · exact ih _ hrest (List.nodup_cons.mp hnd).2

theorem getFile_extractall (fs : FS) (ar : Archive) (dest : Path)
    (e : Path × Nat) (he : e ∈ ar) (hnd : (ar.map Prod.fst).Nodup) :
    getFile (extractall fs ar dest) (dest ++ e.1) = some e.2 :=
  getFile_foldl_extract dest ar (addDir fs dest) e he hnd

/-! ## Theorems for claim C7 -/

/-- Claim C7: whenever the downloaded 2022 archive has put the nested zip
at its fixed relative path and that zip parses to entries with pairwise
distinct paths, none being the nested archive's own name, the 2022 fixup
succeeds: afterwards the nested archive file no longer exists and every
file it contained is present, extracted under the year folder with its
content. -/
theorem C7_nested_zip_fixup (w : World) (fs : FS) (c : Nat) (ar : Archive)
    (hj : getFile fs jankFile = some c)
    (hz : w.zipOf c = some ar)
    (hnd : (ar.map Prod.fst).Nodup)
    (hnotself : ∀ e ∈ ar, e.1 ≠ ["Bike share ridership 2022-11.zip"]) :
    nestedZipFixup w fs =
      .ok (removeFile
        (extractall fs ar ["data", "bikeshare-ridership-2022"]) jankFile) ∧
    fileExists (removeFile
        (extractall fs ar ["data", "bikeshare-ridership-2022"]) jankFile)
      jankFile = false ∧
    ∀ e ∈ ar, getFile (removeFile
        (extractall fs ar ["data", "bikeshare-ridership-2022"]) jankFile)
        (["data", "bikeshare-ridership-2022"] ++ e.1) = some e.2 := by
  refine ⟨?_, ?_, ?_⟩
  · unfold nestedZipFixup
    simp only [hj, hz]
  · unfold fileExists
    rw [getFile_removeFile_self]
    rfl
  · intro e he
    have hne : (["data", "bikeshare-ridership-2022"] ++ e.1) ≠ jankFile := by
      intro hcontra
      have hj2 : jankFile = ["data", "bikeshare-ridership-2022"] ++
          ["Bike share ridership 2022-11.zip"] := rfl
      rw [hj2] at hcontra
      exact hnotself e he (List.append_cancel_left hcontra)
    rw [getFile_removeFile_ne _ _ _ hne]
    exact getFile_extractall fs ar _ e he hnd

/-- Claim C7 witness at a concrete filesystem and archive. -/
theorem C7_witness :
    nestedZipFixup wNestedC7
        (FS.mk [(jankFile, 5)] [["data"], ["data", "bikeshare-ridership-2022"]]) =
      .ok (removeFile (extractall
        (FS.mk [(jankFile, 5)] [["data"], ["data", "bikeshare-ridership-2022"]])
        [(["x.csv"], 9)] ["data", "bikeshare-ridership-2022"]) jankFile) ∧
    fileExists (removeFile (extractall
        (FS.mk [(jankFile, 5)] [["data"], ["data", "bikeshare-ridership-2022"]])
        [(["x.csv"], 9)] ["data", "bikeshare-ridership-2022"]) jankFile)
      jankFile = false ∧
    ∀ e ∈ ([(["x.csv"], 9)] : Archive),
      getFile (removeFile (extractall
        (FS.mk [(jankFile, 5)] [["data"], ["data", "bikeshare-ridership-2022"]])
        [(["x.csv"], 9)] ["data", "bikeshare-ridership-2022"]) jankFile)
        (["data", "bikeshare-ridership-2022"] ++ e.1) = some e.2 :=
  C7_nested_zip_fixup wNestedC7
    (FS.mk [(jankFile, 5)] [["data"], ["data", "bikeshare-ridership-2022"]])
    5 [(["x.csv"], 9)] (by decide) (by decide) (by decide) (by decide)

/-! ## Lemmas about the folder-flattening fixup -/

theorem asChildOf_eq_some (folder p : Path) (n : String)
    (h : asChildOf folder p = some n) : p = folder ++ [n] := by
  unfold asChildOf at h
  by_cases hcond : (p.length == folder.length + 1 &&
      p.take folder.length == folder) = true
  · rw [if_pos hcond] at h
    rw [Bool.and_eq_true] at hcond
    have hlen : p.length = folder.length + 1 := by simpa using hcond.1
    have htake : p.take folder.length = folder := by simpa using hcond.2
    have hdlen : (p.drop folder.length).length = 1 := by
      rw [List.length_drop, hlen]
      omega
    rcases List.length_eq_one.mp hdlen with ⟨m, hm⟩
    have hp : p = folder ++ [m] := by
      conv_lhs => rw [← List.take_append_drop folder.length p]
      rw [htake, hm]
    rw [hp, List.getLast?_concat] at h
    cases h
    exact hp
  · rw [if_neg hcond] at h
    exact absurd h (by simp)

theorem asChildOf_append (folder : Path) (n : String) :
    asChildOf folder (folder ++ [n]) = some n := by
  unfold asChildOf
  rw [if_pos]
  · exact List.getLast?_concat folder
  · simp [List.take_left]

theorem foldl_move_dirs (folder : Path) (L : List (String × Nat)) (fs : FS) :
    (L.foldl (moveEntry folder) fs).dirs = fs.dirs := by
  induction L generalizing fs with
  | nil => rfl
  | cons a L ih =>
    rw [List.foldl_cons, ih]
    rfl

theorem foldl_move_frame (folder : Path) (L : List (String × Nat)) (fs : FS)
    (q : Path) (h : ∀ x ∈ L, q ≠ ["data", x.1] ∧ q ≠ folder ++ [x.1]) :
    getFile (L.foldl (moveEntry folder) fs) q = getFile fs q := by
  induction L generalizing fs with
  | nil => rfl
  | cons a L ih =>
    rw [List.foldl_cons, ih _ (fun x hx => h x (List.mem_cons_of_mem a hx))]
    unfold moveEntry
    rw [getFile_writeFile_ne _ _ _ _ (h a (List.mem_cons_self a L)).1]
    exact getFile_removeFile_ne _ _ _ (h a (List.mem_cons_self a L)).2

theorem getFile_foldl_move (folder : Path) (hf : folder ≠ ["data"])
    (L : List (String × Nat)) (fs : FS) (nd : String × Nat)
    (hmem : nd ∈ L) (hnd : (L.map Prod.fst).Nodup) :
    getFile (L.foldl (moveEntry folder) fs) ["data", nd.1] = some nd.2 := by
  induction L generalizing fs with
  | nil => cases hmem
  | cons a L ih =>
    rw [List.foldl_cons]
    rcases List.mem_cons.mp hmem with heq | hrest
    · subst heq
      have hframe : ∀ x ∈ L, (["data", nd.1] : Path) ≠ ["data", x.1] ∧
          (["data", nd.1] : Path) ≠ folder ++ [x.1] := by
        intro x hx
        constructor
        · intro hcontra
          have hx1 : nd.1 = x.1 := by
            injection hcontra with h1 h2
            injection h2 with h3 h4
          exact (List.nodup_cons.mp hnd).1
            (hx1 ▸ List.mem_map_of_mem Prod.fst hx)
        · intro hcontra
          have hlen : folder.length = 1 := by
            have h2 := congrArg List.length hcontra
            simp at h2
            omega
          rcases List.length_eq_one.mp hlen with ⟨f0, hf0⟩
          subst hf0
          rw [show ([f0] ++ [x.1] : Path) = [f0, x.1] from rfl] at hcontra
          have h3 : ("data" : String) = f0 := by
            injection hcontra with h3 h4
          exact hf (by rw [← h3])
      rw [foldl_move_frame folder L _ _ hframe]
      exact getFile_writeFile_self _ _ _
    · exact ih _ hrest (List.nodup_cons.mp hnd).2

theorem mem_foldl_move (folder : Path) (L : List (String × Nat)) (fs : FS)
    (e : Path × Nat) (he : e ∈ (L.foldl (moveEntry folder) fs).files) :
    (e ∈ fs.files ∧ ∀ nd ∈ L, e.1 ≠ folder ++ [nd.1]) ∨
      (∃ nd ∈ L, e.1 = ["data", nd.1]) := by
  induction L generalizing fs with
  | nil => exact Or.inl ⟨he, fun nd h => absurd h (List.not_mem_nil nd)⟩
  | cons a L ih =>
    rw [List.foldl_cons] at he
    rcases ih _ he with ⟨hmem, hnot⟩ | ⟨nd, hnd, heq⟩
    · rcases List.mem_append.mp hmem with hmem1 | hmem2
      · have h1 := List.mem_filter.mp hmem1
        have h2 := List.mem_filter.mp h1.1
        refine Or.inl ⟨h2.1, ?_⟩
        intro nd hnd2
        rcases List.mem_cons.mp hnd2 with heqa | hnd3
        · subst heqa
          intro hcontra
          have h22 := h2.2
          rw [hcontra] at h22
          simp at h22
        · exact hnot nd hnd3
      · have he2 := List.mem_singleton.mp hmem2
        exact Or.inr ⟨a, List.mem_cons_self a L, by rw [he2]⟩
    · exact Or.inr ⟨nd, List.mem_cons_of_mem a hnd, heq⟩

theorem mem_directFiles (fs : FS) (folder : Path) (e : Path × Nat)
    (n : String) (hmem : e ∈ fs.files)
    (hch : asChildOf folder e.1 = some n) :
    (n, e.2) ∈ directFiles fs folder := by
  unfold directFiles
  refine List.mem_filterMap.mpr ⟨e, hmem, ?_⟩
  rw [hch]
  rfl

theorem moveOut_no_direct_files (fs : FS) (folder : Path)
    (hf : folder ≠ ["data"]) :
    hasDirectFile (moveOut fs folder) folder = false := by
  rw [Bool.eq_false_iff]
  intro hcontra
  unfold hasDirectFile at hcontra
  rcases List.any_eq_true.mp hcontra with ⟨e, he, hsome⟩
  rcases Option.isSome_iff_exists.mp (by simpa using hsome) with ⟨n, hn⟩
  have hep : e.1 = folder ++ [n] := asChildOf_eq_some folder e.1 n hn
  rcases mem_foldl_move folder _ fs e he with ⟨hmem, hnot⟩ | ⟨nd, hnd, heq⟩
  · exact hnot (n, e.2) (mem_directFiles fs folder e n hmem hn) hep
  · rw [heq] at hep
    have hlen : folder.length = 1 := by
      have h2 := congrArg List.length hep
      simp at h2
      omega
    rcases List.length_eq_one.mp hlen with ⟨f0, hf0⟩
    subst hf0
    rw [show ([f0] ++ [n] : Path) = [f0, n] from rfl] at hep
    have h3 : ("data" : String) = f0 := by
      injection hep with h3 h4
    exact hf (by rw [← h3])

theorem hasDirectSubdir_moveOut (fs : FS) (folder : Path) :
    hasDirectSubdir (moveOut fs folder) folder =
      hasDirectSubdir fs folder := by
  unfold hasDirectSubdir
  rw [show (moveOut fs folder).dirs = fs.dirs from foldl_move_dirs folder _ fs]

theorem subdir_contra (fs : FS) (folder : Path)
    (hnosub : hasDirectSubdir fs folder = false) (d' : Path)
    (hd' : d' ∈ fs.dirs) (hlen3 : d'.length = 3)
    (htake : d'.take 2 = folder) : False := by
  have hdlen : (d'.drop 2).length = 1 := by
    rw [List.length_drop, hlen3]
  rcases List.length_eq_one.mp hdlen with ⟨m, hm⟩
  have hdec : d' = folder ++ [m] := by
    conv_lhs => rw [← List.take_append_drop 2 d']
    rw [htake, hm]
  have hsub : hasDirectSubdir fs folder = true := by
    unfold hasDirectSubdir
    refine List.any_eq_true.mpr ⟨d', hd', ?_⟩
    rw [hdec, asChildOf_append]
    rfl
  rw [hnosub] at hsub
  exact Bool.noConfusion hsub

/-! ## Theorems for claim C6 -/

/-- Claim C6 (counterexample): a 2023 archive whose year folder contains a
nested subdirectory.  The fixup walks top-down, moves the year folder's
direct files, then calls rmdir on the still-non-empty folder, which raises
OSError: the run aborts, the subfolder is not removed and the nested file
never reaches the working-directory root. -/
theorem C6_counterexample :
    downloadYear wNestedC6 true (FS.mk [] []) 2023
        "f0fa6a67-4571-4dd6-9d5a-df010ebed7d1" =
      .error (.osErr .dirNotEmpty) ∧
    flattenFixup (extractall (FS.mk [] [])
        [(["bikeshare-ridership-2023", "sub", "x.csv"], 9)] ["data"]) 2023 =
      .error .dirNotEmpty :=
  ⟨rfl, rfl⟩

/-- Claim C6 (amended): for a year in the flatten set whose extracted
subfolder holds files only (no nested subdirectory) — the shape the actual
archives have — the fixup succeeds, every file that was directly inside
the year folder is afterwards present at the working-directory root with
its content, and the year folder and everything below it is gone; with a
nested subdirectory the fixup instead raises OSError and aborts. -/
theorem C6_flatten_flat_folder (fs : FS) (year : Nat)
    (hy : year ∈ REMOVE_FOLDER)
    (hdir : dirExists fs (yearFolder year) = true)
    (hnosub : hasDirectSubdir fs (yearFolder year) = false)
    (hwf : wellFormed fs = true)
    (hnames : ((directFiles fs (yearFolder year)).map Prod.fst).Nodup) :
    ∃ fs2, flattenFixup fs year = .ok fs2 ∧
      (∀ e ∈ fs.files, ∀ n, asChildOf (yearFolder year) e.1 = some n →
        getFile fs2 ["data", n] = some e.2) ∧
      dirExists fs2 (yearFolder year) = false ∧
      (∀ d ∈ fs2.dirs, d.take 2 ≠ yearFolder year) := by
  have hfne : yearFolder year ≠ ["data"] := by
    intro hcontra
    have hlc := congrArg List.length hcontra
    simp [yearFolder] at hlc
  have hno_file : hasDirectFile (moveOut fs (yearFolder year))
      (yearFolder year) = false := moveOut_no_direct_files fs _ hfne
  have hno_sub : hasDirectSubdir (moveOut fs (yearFolder year))
      (yearFolder year) = false := by
    rw [hasDirectSubdir_moveOut]
    exact hnosub
  refine ⟨FS.mk (moveOut fs (yearFolder year)).files
      ((moveOut fs (yearFolder year)).dirs.filter
        (fun d => d != yearFolder year)), ?_, ?_, ?_, ?_⟩
  · unfold flattenFixup rmdirE
    rw [if_pos hdir, hno_file, hno_sub]
    rfl
  · intro e he n hch
    exact getFile_foldl_move (yearFolder year) hfne _ fs (n, e.2)
      (mem_directFiles fs _ e n he hch) hnames
  · rw [Bool.eq_false_iff]
    intro hcontra
    have hmem := List.mem_of_elem_eq_true hcontra
    have hbad := (List.mem_filter.mp hmem).2
    simp at hbad
  · intro d hd hcontra
    have hd2 : d ∈ fs.dirs.filter (fun d => d != yearFolder year) := by
      rw [show (moveOut fs (yearFolder year)).dirs = fs.dirs from
        foldl_move_dirs _ _ _] at hd
      exact hd
    have hdm := List.mem_filter.mp hd2
    have hne : d ≠ yearFolder year := by
      intro heq
      have hbad := hdm.2
      rw [heq] at hbad
      simp at hbad
    have hlenf : (yearFolder year).length = 2 := rfl
    have hlend : 2 ≤ d.length := by
      have hlc := congrArg List.length hcontra
      rw [List.length_take, hlenf] at hlc
      omega
    by_cases hc2 : d.length ≤ 2
    · have hall : d.take 2 = d := List.take_of_length_le hc2
      exact hne (by rw [← hall, hcontra])
    · by_cases hc3 : d.length = 3
      · exact subdir_contra fs _ hnosub d hdm.1 hc3 hcontra
      · have hge4 : 4 ≤ d.length := by omega
        have hanc : d.take 3 ∈ properAncestors d := by
          unfold properAncestors
          exact List.mem_map.mpr ⟨2, List.mem_range.mpr (by omega), rfl⟩
        have hdirs : dirExists fs (d.take 3) = true := by
          unfold wellFormed at hwf
          rw [Bool.and_eq_true] at hwf
          exact List.all_eq_true.mp
            (List.all_eq_true.mp hwf.2 d hdm.1) _ hanc
        refine subdir_contra fs _ hnosub (d.take 3)
          (List.mem_of_elem_eq_true hdirs) ?_ ?_
        · rw [List.length_take]
          omega
        · rw [List.take_take]
          exact hcontra

/-- Claim C6 witness for the amended statement at a concrete filesystem. -/
theorem C6_witness :
    ∃ fs2, flattenFixup
        (FS.mk [(["data", "bikeshare-ridership-2022", "t.csv"], 3)]
          [["data"], ["data", "bikeshare-ridership-2022"]]) 2022 = .ok fs2 ∧
      (∀ e ∈ (FS.mk [(["data", "bikeshare-ridership-2022", "t.csv"], 3)]
          [["data"], ["data", "bikeshare-ridership-2022"]]).files,
        ∀ n, asChildOf (yearFolder 2022) e.1 = some n →
          getFile fs2 ["data", n] = some e.2) ∧
      dirExists fs2 (yearFolder 2022) = false ∧
      (∀ d ∈ fs2.dirs, d.take 2 ≠ yearFolder 2022) :=
  C6_flatten_flat_folder
    (FS.mk [(["data", "bikeshare-ridership-2022", "t.csv"], 3)]
      [["data"], ["data", "bikeshare-ridership-2022"]]) 2022
    (by decide) (by decide) (by decide) (by decide) (by decide)

/-- Claim C4 witness at a concrete database state. -/
theorem C4_witness :
    (load_data (DB.mk ["user", "bike"] none) []).db.types = ["user", "bike"] ∧
    (load_data (DB.mk ["user", "bike"] none) []).db.types.contains "user" = true ∧
    (load_data (DB.mk ["user", "bike"] none) []).db.types.contains "bike" = true ∧
    (⟨.info, enumExistsMsg⟩ : LogEntry) ∈
      (load_data (DB.mk ["user", "bike"] none) []).logs ∧
    (load_data (DB.mk ["user", "bike"] none) []).db.tbs_trips =
      some (insertNewRows ((DB.mk ["user", "bike"] none).tbs_trips.getD []) []).1 ∧
    (load_data (DB.mk ["user", "bike"] none) []).inserted =
      (insertNewRows ((DB.mk ["user", "bike"] none).tbs_trips.getD []) []).2 :=
  C4_enum_exists_caught (DB.mk ["user", "bike"] none) [] (by decide) (by decide)

end TBS
